import Mathlib

/-!
Shallow embedding of the icon resolution and caching module
(`src/utils/svgs.ts` plus the svg helper file) of the `vscode-iconify`
extension, together with theorems settling the specification claims.

Modelling conventions:
* JavaScript numbers occurring as icon geometry are modelled as exact
  rationals (`ℚ`); every input relevant to the claims (integer widths and
  heights, zero divisors, zero quotients) is exactly representable, so the
  `IEEE` rounding of irrelevant digits plays no role in any statement below.
* The special values produced by JavaScript division (`Infinity`, `NaN`)
  are modelled by the dedicated type `JSNum`.
* `rotate` counts quarter turns and is modelled as `Int`; the JavaScript
  `%` operator is truncated remainder, i.e. `Int.tmod`.
* Optional (possibly `undefined`) object fields are modelled as `Option`;
  the strict comparison `!==` on such a field is equality of `Option`
  values, while `??` is `Option.getD` and `!= null` is `Option.isSome`.
* Asynchronous effects (disk, network, the VS Code key-value store) are
  modelled by explicit state passing and by environment records holding the
  outcome of each external call; a rejected promise that the source code
  catches is modelled as a `none` outcome.
-/

/-- JavaScript number results as needed by the ratio computation:
an exact finite value, `NaN`, or a signed infinity. -/
inductive JSNum where
  | num (q : ℚ)
  | nan
  | inf
  | negInf
  deriving DecidableEq, Repr

/-- JavaScript division `a / b` on finite operands: a zero divisor produces
`NaN` (for `0 / 0`) or a signed infinity, otherwise the exact quotient. -/
def jsDiv (a b : ℚ) : JSNum :=
  if b = 0 then
    if a = 0 then JSNum.nan
    else if 0 < a then JSNum.inf
    else JSNum.negInf
  else JSNum.num (a / b)

/-- The JavaScript expression `x || 1`: `0` and `NaN` are falsy and are
replaced by `1`; every other value (infinities included) is kept. -/
def jsOr1 : JSNum → JSNum
  | JSNum.num q => if q = 0 then JSNum.num 1 else JSNum.num q
  | JSNum.nan => JSNum.num 1
  | x => x

/-- `IconifyIcon`: a vector path body with optional geometry and transform
fields (all optional fields may be `undefined` in the source). -/
structure IconifyIcon where
  body : String := ""
  left : Option ℚ := none
  top : Option ℚ := none
  width : Option ℚ := none
  height : Option ℚ := none
  rotate : Option Int := none
  hFlip : Option Bool := none
  vFlip : Option Bool := none
  deriving DecidableEq, Repr

/-- `IconifyAlias`: a parent name plus optional geometry/transform deltas. -/
structure IconifyAlias where
  parent : String
  left : Option ℚ := none
  top : Option ℚ := none
  width : Option ℚ := none
  height : Option ℚ := none
  rotate : Option Int := none
  hFlip : Option Bool := none
  vFlip : Option Bool := none
  deriving DecidableEq, Repr

/-- `IconifyJSON`: an icon set. `icons` and `aliases` are modelled as
association lists (JavaScript object keys are unique; `List.lookup` finds
the binding). The field `prefixId` models the `prefix` field of the
source type. -/
structure IconifyJSON where
  prefixId : String := ""
  icons : List (String × IconifyIcon) := []
  aliases : List (String × IconifyAlias) := []
  left : Option ℚ := none
  top : Option ℚ := none
  width : Option ℚ := none
  height : Option ℚ := none
  deriving DecidableEq, Repr

/-- `normalizeIcon` (svgs.ts lines 155-167): fill `left`/`top`/`width`/
`height` from the collection defaults and the constants `0`/`16`, and reduce
a truthy (present and nonzero) `rotate` modulo 4 with JavaScript `%`. -/
def normalizeIcon (icon : IconifyIcon) (data : IconifyJSON) : IconifyIcon :=
  { icon with
    left := some (icon.left.getD (data.left.getD 0))
    top := some (icon.top.getD (data.top.getD 0))
    width := some (icon.width.getD (data.width.getD 16))
    height := some (icon.height.getD (data.height.getD 16))
    rotate :=
      match icon.rotate with
      | some r => if r ≠ 0 then some (Int.tmod r 4) else some r
      | none => none }

/-- `mergeAlias` (svgs.ts lines 169-202): geometry fields are overridden
when the alias provides them (`!= null`); `rotate` is the truncated-remainder
sum modulo 4, the field being deleted when that value is `0`; the flip flags
are set to `true` exactly when parent and alias disagree under JavaScript
`!==` (strict comparison of the possibly-`undefined` fields), and deleted
otherwise. -/
def mergeAlias (parent : IconifyIcon) (al : IconifyAlias) : IconifyIcon :=
  let rotate := Int.tmod (parent.rotate.getD 0 + al.rotate.getD 0) 4
  { body := parent.body
    left := if al.left.isSome then al.left else parent.left
    top := if al.top.isSome then al.top else parent.top
    width := if al.width.isSome then al.width else parent.width
    height := if al.height.isSome then al.height else parent.height
    rotate := if rotate ≠ 0 then some rotate else none
    hFlip := if parent.hFlip ≠ al.hFlip then some true else none
    vFlip := if parent.vFlip ≠ al.vFlip then some true else none }

/-- Filtering with a stronger predicate keeps at most as many elements. -/
theorem filterLenMono {p q : String → Bool} (h : ∀ x, p x = true → q x = true) :
    ∀ l : List String, (l.filter p).length ≤ (l.filter q).length := by
  intro l
  induction l with
  | nil => simp
  | cons a t ih =>
    by_cases hp : p a = true
    · rw [List.filter_cons_of_pos hp, List.filter_cons_of_pos (h a hp)]
      exact Nat.succ_le_succ ih
    · rw [List.filter_cons_of_neg (by simpa using hp)]
      by_cases hq : q a = true
      · rw [List.filter_cons_of_pos hq]
        exact Nat.le_succ_of_le ih
      · rw [List.filter_cons_of_neg (by simpa using hq)]
        exact ih

/-- Filtering with a stronger predicate that a present element fails keeps
strictly fewer elements. -/
theorem filterLenLt {p q : String → Bool} (h : ∀ x, p x = true → q x = true)
    (x : String) (hp : p x = false) (hq : q x = true) :
    ∀ l : List String, x ∈ l → (l.filter p).length < (l.filter q).length := by
  intro l hx
  induction l with
  | nil => cases hx
  | cons a t ih =>
    rcases List.mem_cons.mp hx with rfl | hxt
    · rw [List.filter_cons_of_neg (by simp [hp]), List.filter_cons_of_pos hq]
      exact Nat.lt_succ_of_le (filterLenMono h t)
    · by_cases hpa : p a = true
      · rw [List.filter_cons_of_pos hpa, List.filter_cons_of_pos (h a hpa)]
        exact Nat.succ_lt_succ (ih hxt)
      · rw [List.filter_cons_of_neg (by simpa using hpa)]
        by_cases hqa : q a = true
        · rw [List.filter_cons_of_pos hqa]
          exact Nat.lt_succ_of_lt (ih hxt)
        · rw [List.filter_cons_of_neg (by simpa using hqa)]
          exact ih hxt

/-- A key with a successful association-list lookup is among the keys. -/
theorem lookup_mem_keys {β : Type} {k : String} {v : β} :
    ∀ {l : List (String × β)}, l.lookup k = some v → k ∈ l.map Prod.fst := by
  intro l h
  induction l with
  | nil => simp [List.lookup] at h
  | cons p t ih =>
    obtain ⟨a, b⟩ := p
    simp only [List.lookup] at h
    simp only [List.map_cons, List.mem_cons]
    by_cases hk : (k == a) = true
    · exact Or.inl (eq_of_beq hk)
    · rw [Bool.not_eq_true] at hk
      rw [hk] at h
      exact Or.inr (ih h)

/-- The recursive worker inside `resolveIconData` (svgs.ts lines 207-225):
a name already on the resolution path resolves to `null`; an icon entry is
normalized and returned; an alias entry recursively resolves its parent
with the current name added to the visited set and merges its deltas onto
the result; anything else is `null`. Termination: every recursive call
starts from an alias key not yet visited, so the number of unvisited alias
keys strictly decreases. -/
def resolveVisited (data : IconifyJSON) (visited : List String) (key : String) :
    Option IconifyIcon :=
  if h : visited.contains key then none
  else
    match data.icons.lookup key with
    | some icon => some (normalizeIcon icon data)
    | none =>
      match hA : data.aliases.lookup key with
      | none => none
      | some al =>
        match resolveVisited data (key :: visited) al.parent with
        | none => none
        | some parentIcon => some (normalizeIcon (mergeAlias parentIcon al) data)
termination_by ((data.aliases.map Prod.fst).filter (fun k => !(visited.contains k))).length
decreasing_by
  apply filterLenLt (x := key)
  · intro x hx
    simp only [List.contains_cons, Bool.not_eq_true', Bool.or_eq_false_iff] at hx ⊢
    exact hx.2
  · simp
  · simpa using h
  · exact lookup_mem_keys hA

/-- `resolveIconData` (svgs.ts lines 204-228): resolve a local name inside
an icon set, starting from an empty visited set. -/
def resolveIconData (data : IconifyJSON) (name : String) : Option IconifyIcon :=
  resolveVisited data [] name

/-- Every name of a pure alias cycle (each member has no icon entry and an
alias entry whose parent is again a member) resolves to `null`, whatever the
visited set already contains. -/
theorem resolveVisited_cycle_aux (data : IconifyJSON) (c : List String)
    (hc : ∀ k ∈ c, data.icons.lookup k = none ∧
      ∃ al, data.aliases.lookup k = some al ∧ al.parent ∈ c) :
    ∀ (n : Nat) (visited : List String) (key : String),
      ((data.aliases.map Prod.fst).filter (fun k => !(visited.contains k))).length ≤ n →
      key ∈ c → resolveVisited data visited key = none := by
  intro n
  induction n with
  | zero =>
    intro visited key hm hk
    rw [resolveVisited.eq_def]
    by_cases hv : visited.contains key
    · simp [show key ∈ visited by simpa using hv]
    · exfalso
      obtain ⟨hicon, al, hA, hp⟩ := hc key hk
      have hmem : key ∈ (data.aliases.map Prod.fst).filter
          (fun k => !(visited.contains k)) :=
        List.mem_filter.mpr ⟨lookup_mem_keys hA, by simpa using hv⟩
      have := List.length_pos_of_mem hmem
      omega
  | succ n ih =>
    intro visited key hm hk
    obtain ⟨hicon, al, hA, hp⟩ := hc key hk
    rw [resolveVisited.eq_def]
    by_cases hv : visited.contains key
    · simp [show key ∈ visited by simpa using hv]
    · have hlt : ((data.aliases.map Prod.fst).filter
          (fun k => !((key :: visited).contains k))).length <
          ((data.aliases.map Prod.fst).filter (fun k => !(visited.contains k))).length := by
        apply filterLenLt (x := key)
        · intro x hx
          simp only [List.contains_cons, Bool.not_eq_true', Bool.or_eq_false_iff] at hx ⊢
          exact hx.2
        · simp
        · simpa using hv
        · exact lookup_mem_keys hA
      have hrec : resolveVisited data (key :: visited) al.parent = none :=
        ih (key :: visited) al.parent (by omega) hp
      rw [dif_neg hv]
      simp only [hicon]
      split
      · rfl
      · rename_i al' hA'
        rw [hA] at hA'
        cases hA'
        rw [hrec]

/-- C2: an icon set containing a cyclic alias chain makes `resolveIconData`
return `null` (not-found) for every name on the cycle, and resolution
returns `null` immediately for any name already on the current resolution
path. -/
theorem resolveIconData_cycle_safe :
    (∀ (data : IconifyJSON) (c : List String),
        (∀ k ∈ c, data.icons.lookup k = none ∧
          ∃ al, data.aliases.lookup k = some al ∧ al.parent ∈ c) →
        ∀ k ∈ c, resolveIconData data k = none)
    ∧ (∀ (data : IconifyJSON) (visited : List String) (key : String),
        visited.contains key = true → resolveVisited data visited key = none) := by
  constructor
  · intro data c hc k hk
    exact resolveVisited_cycle_aux data c hc _ [] k (Nat.le_refl _) hk
  · intro data visited key hv
    rw [resolveVisited.eq_def]
    simp [show key ∈ visited by simpa using hv]

/-- A two-element alias cycle `a → b → a` with no icon entries. -/
def cycleSet : IconifyJSON :=
  { aliases := [("a", { parent := "b" }), ("b", { parent := "a" })] }

/-- Witness for C2 on the concrete cycle `a ↔ b`. -/
theorem resolveIconData_cycle_safe_witness :
    resolveIconData cycleSet "a" = none ∧ resolveIconData cycleSet "b" = none ∧
      resolveVisited cycleSet ["x"] "x" = none := by
  have h := resolveIconData_cycle_safe
  have hcyc : ∀ k ∈ ["a", "b"], cycleSet.icons.lookup k = none ∧
      ∃ al, cycleSet.aliases.lookup k = some al ∧ al.parent ∈ ["a", "b"] := by
    intro k hk
    rcases List.mem_cons.mp hk with rfl | hk'
    · exact ⟨by decide, ⟨{ parent := "b" }, by decide, by simp⟩⟩
    · rcases List.mem_cons.mp hk' with rfl | h'
      · exact ⟨by decide, ⟨{ parent := "a" }, by decide, by simp⟩⟩
      · cases h'
  exact ⟨h.1 cycleSet ["a", "b"] hcyc "a" (by simp),
    h.1 cycleSet ["a", "b"] hcyc "b" (by simp),
    h.2 cycleSet ["x"] "x" (by decide)⟩

/-- Concrete parent for the C5 counterexample: an explicit `hFlip: false`. -/
def flipParentCE : IconifyIcon := { hFlip := some false }

/-- Concrete alias for the C5 counterexample: no flip delta at all. -/
def flipAliasCE : IconifyAlias := { parent := "p" }

/-- C5 counterexample: with parent `hFlip` explicitly `false` and the alias
`hFlip` absent, the two flags agree as booleans (both coerce to `false`), so
a boolean XOR would leave the merged flag absent/false; the code's strict
`!==` comparison distinguishes `false` from `undefined` and yields
`hFlip: true` instead. -/
theorem mergeAlias_flip_xor_counterexample :
    flipParentCE.hFlip.getD false = flipAliasCE.hFlip.getD false
    ∧ (mergeAlias flipParentCE flipAliasCE).hFlip = some true := by decide

/-- C5 (amended): the merged `hFlip` (and likewise `vFlip`) is present/true
exactly when the parent's flag and the alias's flag differ as optional
values — with absent, explicit-false and explicit-true pairwise distinct —
and is absent when they are equal; when both flags are explicitly present
this coincides with boolean XOR. -/
theorem mergeAlias_flip_strict (p : IconifyIcon) (al : IconifyAlias) :
    ((mergeAlias p al).hFlip = if p.hFlip ≠ al.hFlip then some true else none)
    ∧ ((mergeAlias p al).vFlip = if p.vFlip ≠ al.vFlip then some true else none)
    ∧ (∀ b c : Bool, p.hFlip = some b → al.hFlip = some c →
        (mergeAlias p al).hFlip = if xor b c then some true else none)
    ∧ (∀ b c : Bool, p.vFlip = some b → al.vFlip = some c →
        (mergeAlias p al).vFlip = if xor b c then some true else none) := by
  refine ⟨rfl, rfl, ?_, ?_⟩ <;>
  · intro b c hb hc
    simp only [mergeAlias, hb, hc]
    cases b <;> cases c <;> simp

/-- Witness for C5 (amended) at explicitly present flags. -/
theorem mergeAlias_flip_strict_witness :
    (mergeAlias { hFlip := some false, vFlip := some true }
        { parent := "p", hFlip := some true, vFlip := some true }).hFlip
      = (if xor false true then some true else none)
    ∧ (mergeAlias { hFlip := some false, vFlip := some true }
        { parent := "p", hFlip := some true, vFlip := some true }).vFlip
      = (if xor true true then some true else none) :=
  ⟨(mergeAlias_flip_strict _ _).2.2.1 false true rfl rfl,
   (mergeAlias_flip_strict _ _).2.2.2 true true rfl rfl⟩

/-- C6: the merged `rotate` is the sum of the parent's and the alias's
rotate (absent read as `0`) reduced modulo 4 with the JavaScript truncated
remainder, and the field is removed entirely when that value is `0`; on the
nonnegative inputs the type admits, truncated remainder agrees with
mathematical mod. The spec's two concrete instances are included. -/
theorem mergeAlias_rotate_mod4 :
    (∀ (p : IconifyIcon) (al : IconifyAlias),
      (mergeAlias p al).rotate =
        if Int.tmod (p.rotate.getD 0 + al.rotate.getD 0) 4 = 0 then none
        else some (Int.tmod (p.rotate.getD 0 + al.rotate.getD 0) 4))
    ∧ (∀ pr ar : Int, 0 ≤ pr → 0 ≤ ar → Int.tmod (pr + ar) 4 = (pr + ar) % 4)
    ∧ (mergeAlias { rotate := some 1 } { parent := "p", rotate := some 2 }).rotate = some 3
    ∧ (mergeAlias { rotate := some 2 } { parent := "p", rotate := some 2 }).rotate = none := by
  refine ⟨fun p al => ?_, fun pr ar hpr har => ?_, by decide, by decide⟩
  · by_cases h : Int.tmod (p.rotate.getD 0 + al.rotate.getD 0) 4 = 0
    · simp [mergeAlias, h]
    · simp [mergeAlias, h]
  · exact Int.tmod_eq_emod (by omega) (by omega)

/-- Witness for C6 discharging the nonnegativity hypotheses at `1` and `2`. -/
theorem mergeAlias_rotate_mod4_witness :
    (0:Int) ≤ 1 ∧ (0:Int) ≤ 2 ∧ Int.tmod ((1:Int) + 2) 4 = ((1:Int) + 2) % 4 :=
  ⟨by decide, by decide, mergeAlias_rotate_mod4.2.1 1 2 (by decide) (by decide)⟩

/-- `IconInfo` (svgs.ts lines 146-153): the resolved icon with final
geometry, the key actually used, the ratio and the collection/id pair. -/
structure IconInfo where
  body : String
  left : Option ℚ
  top : Option ℚ
  rotate : Option Int
  hFlip : Option Bool
  vFlip : Option Bool
  width : ℚ
  height : ℚ
  key : String
  ratio : JSNum
  collection : String
  id : String
  deriving DecidableEq, Repr

/-- The result of the external `parseIcon` collaborator. -/
structure ParsedIcon where
  collection : String
  icon : String
  deriving DecidableEq, Repr

/-- Environment of `getIconInfo`: the user alias table and the
custom-aliases-only flag from the configuration, the external `parseIcon`
collaborator, and the outcome of `await LoadIconSet(collection)` for each
collection id (`none` models the `undefined` returned when the collection
cannot be loaded). -/
structure IconEnv where
  enabledAliases : String → Option String
  customAliasesOnly : Bool
  parseIcon : String → Option ParsedIcon
  load : String → Option IconifyJSON

/-- The observable result of `getIconInfo`: the JavaScript function returns
`undefined` (bare `return`), `null`, or an `IconInfo` object; `undefined`
and `null` are distinct JavaScript values. -/
inductive GetIconResult where
  | undef
  | null
  | found (info : IconInfo)
  deriving DecidableEq, Repr

/-- Extract the icon of a `found` result, `none` otherwise. -/
def GetIconResult.foundInfo : GetIconResult → Option IconInfo
  | GetIconResult.found i => some i
  | _ => none

/-- `getIconInfo` (svgs.ts lines 230-263): apply the user alias table and
the custom-aliases-only guard, parse the effective key, load the collection
(`null` when unavailable), resolve the local name (`null` when not found),
then assemble the resolved info with final width/height and the ratio
`(width / height) || 1`. -/
def getIconInfo (env : IconEnv) (key : String) (allowAliases : Bool) :
    GetIconResult :=
  let al := if allowAliases then env.enabledAliases key else none
  if allowAliases && env.customAliasesOnly && al.isNone then GetIconResult.undef
  else
    let actualKey := al.getD key
    match env.parseIcon actualKey with
    | none => GetIconResult.undef
    | some result =>
      match env.load result.collection with
      | none => GetIconResult.null
      | some data =>
        match resolveIconData data result.icon with
        | none => GetIconResult.null
        | some iconData =>
          let width := iconData.width.getD (data.width.getD 16)
          let height := iconData.height.getD (data.height.getD 16)
          GetIconResult.found
            { body := iconData.body
              left := iconData.left
              top := iconData.top
              rotate := iconData.rotate
              hFlip := iconData.hFlip
              vFlip := iconData.vFlip
              width := width
              height := height
              key := actualKey
              ratio := jsOr1 (jsDiv width height)
              collection := result.collection
              id := result.icon }

/-- Evaluation rules for `resolveIconData` on a direct icon entry and on a
name with neither an icon nor an alias entry. -/
theorem resolveIconData_eval (data : IconifyJSON) (name : String) :
    (∀ icon, data.icons.lookup name = some icon →
        resolveIconData data name = some (normalizeIcon icon data))
    ∧ (data.icons.lookup name = none → data.aliases.lookup name = none →
        resolveIconData data name = none) := by
  constructor
  · intro icon hicon
    rw [resolveIconData, resolveVisited.eq_def]
    simp [hicon]
  · intro h1 h2
    rw [resolveIconData, resolveVisited.eq_def]
    simp only [List.contains, List.elem_nil, Bool.false_eq_true, not_false_eq_true,
      dite_eq_ite, if_false, h1]
    split
    · rfl
    · rename_i al hA
      rw [h2] at hA
      cases hA

/-- C1 (amended): when the effective key parses but its collection fails to
load, `getIconInfo` returns `null` — and this is the same observable value,
not a distinct one, as the `null` returned when the collection loads but the
local name does not resolve. -/
theorem getIconInfo_null_on_unavailable (env : IconEnv) (key : String)
    (allowAliases : Bool) (pr : ParsedIcon)
    (hguard : (allowAliases && env.customAliasesOnly &&
      (if allowAliases then env.enabledAliases key else none).isNone) = false)
    (hparse : env.parseIcon
      ((if allowAliases then env.enabledAliases key else none).getD key) = some pr) :
    (env.load pr.collection = none →
      getIconInfo env key allowAliases = GetIconResult.null)
    ∧ (∀ data, env.load pr.collection = some data →
        resolveIconData data pr.icon = none →
        getIconInfo env key allowAliases = GetIconResult.null) := by
  constructor
  · intro hload
    simp [getIconInfo, hguard, hparse, hload]
  · intro data hload hres
    simp [getIconInfo, hguard, hparse, hload, hres]

/-- The collection used by the C1 counterexample: it contains one icon named
`x`, so the local name `i` does not resolve in it. -/
def dataC1 : IconifyJSON := { icons := [("x", { body := "<p/>" })] }

/-- Environment for the C1 counterexample: collection `a` fails to load,
collection `b` loads as `dataC1`. -/
def envC1 : IconEnv :=
  { enabledAliases := fun _ => none
    customAliasesOnly := false
    parseIcon := fun s =>
      if s = "a:i" then some { collection := "a", icon := "i" }
      else if s = "b:i" then some { collection := "b", icon := "i" }
      else none
    load := fun c => if c = "b" then some dataC1 else none }

/-- C1 counterexample: the key `a:i` has a collection that fails to load and
the key `b:i` has a collection that loads but whose local name does not
resolve, yet `getIconInfo` returns the very same value (`null`) for both —
the unavailable outcome is not distinct from the not-found outcome. -/
theorem getIconInfo_outcomes_collide :
    envC1.load "a" = none
    ∧ envC1.load "b" = some dataC1
    ∧ resolveIconData dataC1 "i" = none
    ∧ getIconInfo envC1 "a:i" true = GetIconResult.null
    ∧ getIconInfo envC1 "b:i" true = GetIconResult.null
    ∧ getIconInfo envC1 "a:i" true = getIconInfo envC1 "b:i" true := by
  have hres : resolveIconData dataC1 "i" = none :=
    (resolveIconData_eval dataC1 "i").2 (by decide) (by decide)
  have ha : getIconInfo envC1 "a:i" true = GetIconResult.null := by
    simp [getIconInfo, envC1]
  have hb : getIconInfo envC1 "b:i" true = GetIconResult.null := by
    simp [getIconInfo, envC1, hres]
  exact ⟨rfl, rfl, hres, ha, hb, ha.trans hb.symm⟩

/-- Witness for C1 (amended): both failure branches at a concrete
environment. -/
theorem getIconInfo_null_on_unavailable_witness :
    getIconInfo envC1 "a:i" true = GetIconResult.null
    ∧ getIconInfo envC1 "b:i" true = GetIconResult.null := by
  have hres : resolveIconData dataC1 "i" = none :=
    (resolveIconData_eval dataC1 "i").2 (by decide) (by decide)
  exact ⟨(getIconInfo_null_on_unavailable envC1 "a:i" true
      { collection := "a", icon := "i" } (by decide) (by decide)).1 (by decide),
    (getIconInfo_null_on_unavailable envC1 "b:i" true
      { collection := "b", icon := "i" } (by decide) (by decide)).2 dataC1
      (by decide) hres⟩

/-- C8: an icon carrying no explicit width/height in an icon set carrying no
collection-level width/height is normalized to width 16 and height 16, and
`getIconInfo` reports it with width 16, height 16 and ratio 1. -/
theorem default_geometry_fallback (env : IconEnv) (key c name : String)
    (data : IconifyJSON) (icon : IconifyIcon)
    (halias : env.enabledAliases key = none)
    (hcao : env.customAliasesOnly = false)
    (hparse : env.parseIcon key = some { collection := c, icon := name })
    (hload : env.load c = some data)
    (hicon : data.icons.lookup name = some icon)
    (hw : icon.width = none) (hh : icon.height = none)
    (hdw : data.width = none) (hdh : data.height = none) :
    ((normalizeIcon icon data).width = some 16
      ∧ (normalizeIcon icon data).height = some 16)
    ∧ (getIconInfo env key true).foundInfo.map IconInfo.width = some 16
    ∧ (getIconInfo env key true).foundInfo.map IconInfo.height = some 16
    ∧ (getIconInfo env key true).foundInfo.map IconInfo.ratio
        = some (JSNum.num 1) := by
  have hres := (resolveIconData_eval data name).1 icon hicon
  have hnw : (normalizeIcon icon data).width = some 16 := by
    simp [normalizeIcon, hw, hdw]
  have hnh : (normalizeIcon icon data).height = some 16 := by
    simp [normalizeIcon, hh, hdh]
  have hratio : jsOr1 (jsDiv 16 16) = JSNum.num 1 := by
    norm_num [jsDiv, jsOr1]
  refine ⟨⟨hnw, hnh⟩, ?_, ?_, ?_⟩ <;>
    simp [getIconInfo, halias, hcao, hparse, hload, hres, hnw, hnh, hratio,
      GetIconResult.foundInfo]

/-- The icon set for the C8 witness: one icon with no geometry at all. -/
def dataC8 : IconifyJSON := { icons := [("a", { body := "<p/>" })] }

/-- Environment for the C8 witness. -/
def envC8 : IconEnv :=
  { enabledAliases := fun _ => none
    customAliasesOnly := false
    parseIcon := fun s =>
      if s = "c:a" then some { collection := "c", icon := "a" } else none
    load := fun s => if s = "c" then some dataC8 else none }

/-- Witness for C8 at a concrete dimensionless icon. -/
theorem default_geometry_fallback_witness :
    envC8.load "c" = some dataC8
    ∧ dataC8.icons.lookup "a" = some { body := "<p/>" }
    ∧ (getIconInfo envC8 "c:a" true).foundInfo.map IconInfo.width = some 16
    ∧ (getIconInfo envC8 "c:a" true).foundInfo.map IconInfo.height = some 16
    ∧ (getIconInfo envC8 "c:a" true).foundInfo.map IconInfo.ratio
        = some (JSNum.num 1) := by
  have h := default_geometry_fallback envC8 "c:a" "c" "a" dataC8 { body := "<p/>" }
    (by decide) (by decide) (by decide) (by decide) (by decide)
    (by decide) (by decide) (by decide) (by decide)
  exact ⟨by decide, by decide, h.2.1, h.2.2.1, h.2.2.2⟩

/-- Modelled from the amended claim's words: the reported ratio is the true
quotient `width / height` except that a quotient of `0` and the `NaN` from
`0 / 0` are reported as `1`, and a zero divisor with a nonzero dividend is
reported as the signed infinity JavaScript division produces. -/
def ratioSpec (w h : ℚ) : JSNum :=
  if h = 0 then
    if w = 0 then JSNum.num 1 else if 0 < w then JSNum.inf else JSNum.negInf
  else if w = 0 then JSNum.num 1
  else JSNum.num (w / h)

/-- The code's ratio expression `(w / h) || 1` agrees with `ratioSpec`. -/
theorem jsOr1_jsDiv_eq_ratioSpec (w h : ℚ) : jsOr1 (jsDiv w h) = ratioSpec w h := by
  unfold jsDiv jsOr1 ratioSpec
  by_cases h0 : h = 0
  · by_cases w0 : w = 0
    · simp [h0, w0]
    · by_cases wpos : 0 < w <;> simp [h0, w0, wpos]
  · by_cases w0 : w = 0
    · simp [h0, w0]
    · simp [h0, w0, div_eq_zero_iff]

/-- C9 (amended): for every resolved icon, the reported ratio follows
`ratioSpec`: it is the true quotient `width / height` for every valid
division with a nonzero quotient, but a valid division with quotient `0`
is reported as `1` (not `0`), `0 / 0` is reported as `1`, and a zero
divisor with nonzero dividend is reported as a signed infinity (not `1`). -/
theorem getIconInfo_ratio_spec :
    (∀ w h : ℚ, jsOr1 (jsDiv w h) = ratioSpec w h)
    ∧ (∀ (env : IconEnv) (key : String) (b : Bool) (info : IconInfo),
        getIconInfo env key b = GetIconResult.found info →
        info.ratio = ratioSpec info.width info.height) := by
  refine ⟨jsOr1_jsDiv_eq_ratioSpec, ?_⟩
  intro env key b info hfound
  simp only [getIconInfo] at hfound
  repeat' split at hfound
  all_goals
    first
      | (injection hfound with h
         subst h
         simp [jsOr1_jsDiv_eq_ratioSpec])
      | injection hfound

/-- The concrete resolved info of `envC8`/`dataC8`, used by the C9 witness. -/
def infoC8 : IconInfo :=
  { body := "<p/>", left := some 0, top := some 0, rotate := none,
    hFlip := none, vFlip := none, width := 16, height := 16,
    key := "c:a", ratio := JSNum.num 1, collection := "c", id := "a" }

/-- Witness for C9 (amended) at a concrete resolved icon. -/
theorem getIconInfo_ratio_spec_witness :
    getIconInfo envC8 "c:a" true = GetIconResult.found infoC8
    ∧ infoC8.ratio = ratioSpec infoC8.width infoC8.height := by
  have hfound : getIconInfo envC8 "c:a" true = GetIconResult.found infoC8 := by
    have hres : resolveIconData dataC8 "a" = some
        { body := "<p/>", left := some 0, top := some 0, width := some 16,
          height := some 16, rotate := none, hFlip := none, vFlip := none } := by
      rw [(resolveIconData_eval dataC8 "a").1 { body := "<p/>" } (by decide)]
      decide
    norm_num [getIconInfo, envC8, hres, infoC8, jsDiv, jsOr1]
  exact ⟨hfound, getIconInfo_ratio_spec.2 envC8 "c:a" true infoC8 hfound⟩

/-- The icon set for the C9 counterexample: an icon with explicit width 0
and height 16. -/
def dataC9 : IconifyJSON :=
  { icons := [("a", { body := "<p/>", width := some 0, height := some 16 })] }

/-- Environment for the C9 counterexample. -/
def envC9 : IconEnv :=
  { enabledAliases := fun _ => none
    customAliasesOnly := false
    parseIcon := fun s =>
      if s = "c:a" then some { collection := "c", icon := "a" } else none
    load := fun s => if s = "c" then some dataC9 else none }

/-- C9 counterexample: for an icon of width 0 and height 16, the division
`0 / 16` is perfectly valid with true quotient `0`, yet the reported ratio
is `1` — the code's `|| 1` treats the falsy quotient `0` exactly like an
invalid division, contradicting the claim that every valid division returns
its true quotient and that `1` is returned exactly for invalid divisions. -/
theorem getIconInfo_ratio_zero_counterexample :
    (getIconInfo envC9 "c:a" true).foundInfo.map IconInfo.width = some 0
    ∧ (getIconInfo envC9 "c:a" true).foundInfo.map IconInfo.height = some 16
    ∧ (getIconInfo envC9 "c:a" true).foundInfo.map IconInfo.ratio
        = some (JSNum.num 1)
    ∧ (0:ℚ) / 16 = 0
    ∧ JSNum.num ((0:ℚ) / 16) ≠ JSNum.num 1 := by
  have hres : resolveIconData dataC9 "a" = some
      { body := "<p/>", left := some 0, top := some 0, width := some 0,
        height := some 16, rotate := none, hFlip := none, vFlip := none } := by
    rw [(resolveIconData_eval dataC9 "a").1
      { body := "<p/>", width := some 0, height := some 16 } (by decide)]
    decide
  refine ⟨?_, ?_, ?_, by norm_num, by simp⟩ <;>
    simp [getIconInfo, envC9, hres, GetIconResult.foundInfo, jsDiv, jsOr1]

/-- The VS Code filesystem error relevant here: `workspace.fs.delete`
rejects with `FileNotFound` when the target does not exist. -/
inductive FsError where
  | fileNotFound
  deriving DecidableEq, Repr

/-- The mutable module-level state of svgs.ts: the deduplication task map
(settled promise values of `LoadIconSet`), the in-memory icon-set map, the
data-URL cache, the extension's key-value `globalState` (only entries that
are present), and whether the persisted cache directory exists on disk. -/
structure ModuleState where
  tasks : List (String × Option IconifyJSON) := []
  loadedIconSets : List (String × IconifyJSON) := []
  dataURLCache : List (String × String) := []
  globalState : List (String × IconifyJSON) := []
  cacheDirExists : Bool := true
  deriving DecidableEq, Repr

/-- `UniqPromise` (svgs.ts lines 46-52), one invocation of the wrapped
function with the task map passed explicitly: if an entry for the key is
stored — the settled (or pending) promise of an earlier call — it is
returned as is; otherwise the factory runs, its promise is stored under the
key and returned. The boolean reports whether the factory was executed. A
promise that rejects is modelled by instantiating `α` with an `Except`
type: the stored value is then `Except.error e`, kept like any other. -/
def UniqPromise {α : Type} (fn : String → α) (tasks : List (String × α))
    (id : String) : α × List (String × α) × Bool :=
  match tasks.lookup id with
  | some v => (v, tasks, false)
  | none => (fn id, (id, fn id) :: tasks, true)

/-- `deleteTask` (svgs.ts lines 53-55): remove the entry for the key. -/
def deleteTask {α : Type} (tasks : List (String × α)) (id : String) :
    List (String × α) :=
  tasks.eraseP (fun p => p.1 == id)

/-- The test `key.startsWith("icons-")`, computed on the character list so
that concrete instances reduce inside the kernel. -/
def isLegacyKey (key : String) : Bool :=
  "icons-".data.isPrefixOf key.data

/-- The suffix `key.slice("icons-".length)` of a legacy key. -/
def legacySuffix (key : String) : String :=
  String.mk (key.data.drop 6)

/-- `clearCache` (svgs.ts lines 65-79): reset the task map, delete the
cache directory recursively, remove every `globalState` entry whose key
starts with `icons-`, and empty both in-memory maps. The deletion is
modelled from the VS Code FileSystem contract: `workspace.fs.delete`
rejects with `FileNotFound` when the target does not exist, and the source
awaits it without a try/catch, so when the cache directory is missing the
rejection propagates to the caller and none of the statements after the
`await` run (the task map was already reset before it). -/
def clearCache (st : ModuleState) : ModuleState × Option FsError :=
  let st1 := { st with tasks := [] }
  if st1.cacheDirExists then
    ({ st1 with
        cacheDirExists := false
        globalState := st1.globalState.filter (fun p => !(isLegacyKey p.1))
        loadedIconSets := []
        dataURLCache := [] }, none)
  else (st1, some FsError.fileNotFound)

/-- `migrateCache` (svgs.ts lines 101-114): every `globalState` entry whose
key starts with `icons-` is adopted into the in-memory map under the suffix
of its key, written to the per-collection cache file, and removed from the
store. Returns the new state and the list of file writes performed. The
source iterates over a snapshot of the keys assigning entries one by one;
keys of the store are unique, so this is modelled by one partition of the
entry list (prepending shadows any older binding for `List.lookup`, as the
assignment overwrites it). -/
def migrateCache (st : ModuleState) : ModuleState × List (String × IconifyJSON) :=
  let migrated := (st.globalState.filter (fun p => isLegacyKey p.1)).map
    (fun p => (legacySuffix p.1, p.2))
  ({ st with
      loadedIconSets := migrated ++ st.loadedIconSets
      globalState := st.globalState.filter (fun p => !(isLegacyKey p.1)) },
   migrated)

/-- The sources `LoadIconSet` can consult, in their source-code order. -/
inductive LoadSource where
  | memory
  | custom
  | disk
  | network
  deriving DecidableEq, Repr

/-- Error-level log events of one `LoadIconSet` execution (`Log.error`
calls; informational logs are not modelled). -/
inductive LogMsg where
  | writeError
  | fetchError
  deriving DecidableEq, Repr

/-- External collaborators of `LoadIconSet`: the registered custom
collections, the outcome of reading the persisted cache file for an id
(`none` models a read or JSON-parse failure, both swallowed by
`loadCache`), the outcome of fetching a URL (`none` models a rejected
`$fetch`, caught by the source), the configured CDN base URL, and whether
the filesystem write behind `writeCache` fails for an id (`writeCache`
catches the failure and only logs it). -/
structure LoadEnv where
  customCollections : List IconifyJSON
  disk : String → Option IconifyJSON
  net : String → Option IconifyJSON
  cdnEntry : String
  fsWriteFails : String → Bool

/-- Observable outcome of one `LoadIconSet` execution: the resolved value
(`none` models resolving with `undefined`, never a thrown error), the new
module state, the cache-file writes attempted, the sources consulted in
order, and the error-level logs. -/
structure LoadOutcome where
  result : Option IconifyJSON
  state : ModuleState
  fileWrites : List (String × IconifyJSON)
  consulted : List LoadSource
  logs : List LogMsg
  deriving Repr

/-- One fresh (not yet deduplicated) execution of the `LoadIconSet` body
(svgs.ts lines 116-144): run `migrateCache`, then take the first of —
in-memory map, custom collection with matching prefix, persisted disk file
(adopted into memory), network fetch of `{cdnEntry}/{id}.json` (adopted
into memory and written to disk, the write failure never propagating) —
and resolve with `undefined` when the fetch rejects. The module-level
`LoadIconSet` is `UniqPromise` applied to this body. -/
def LoadIconSet (env : LoadEnv) (st0 : ModuleState) (id : String) : LoadOutcome :=
  let mig := migrateCache st0
  let st := mig.1
  let writeLog := fun (w : List (String × IconifyJSON)) =>
    (w.filter (fun p => env.fsWriteFails p.1)).map (fun _ => LogMsg.writeError)
  match st.loadedIconSets.lookup id with
  | some d => ⟨some d, st, mig.2, [LoadSource.memory], writeLog mig.2⟩
  | none =>
    match env.customCollections.find? (fun c => c.prefixId == id) with
    | some d =>
      ⟨some d, st, mig.2, [LoadSource.memory, LoadSource.custom], writeLog mig.2⟩
    | none =>
      match env.disk id with
      | some cached =>
        ⟨some cached, { st with loadedIconSets := (id, cached) :: st.loadedIconSets },
          mig.2, [LoadSource.memory, LoadSource.custom, LoadSource.disk],
          writeLog mig.2⟩
      | none =>
        match env.net (env.cdnEntry ++ "/" ++ id ++ ".json") with
        | some d =>
          ⟨some d, { st with loadedIconSets := (id, d) :: st.loadedIconSets },
            mig.2 ++ [(id, d)],
            [LoadSource.memory, LoadSource.custom, LoadSource.disk,
              LoadSource.network],
            writeLog (mig.2 ++ [(id, d)])⟩
        | none =>
          ⟨none, st, mig.2,
            [LoadSource.memory, LoadSource.custom, LoadSource.disk,
              LoadSource.network],
            writeLog mig.2 ++ [LogMsg.fetchError]⟩

/-- C3: a fresh `LoadIconSet` execution consults the sources in exactly the
order memory map, custom collections, disk file, network, stopping at the
first hit; a disk hit and a network hit populate the memory map, a network
hit additionally persists `{id}.json`; the outcome apart from the logs is
independent of whether that persistence fails; and a failed fetch resolves
with no data (the body is total — it never propagates an exception). -/
theorem LoadIconSet_order (env : LoadEnv) (st0 : ModuleState) (id : String) :
    (∀ d, (migrateCache st0).1.loadedIconSets.lookup id = some d →
      LoadIconSet env st0 id =
        ⟨some d, (migrateCache st0).1, (migrateCache st0).2, [LoadSource.memory],
          (LoadIconSet env st0 id).logs⟩)
    ∧ ((migrateCache st0).1.loadedIconSets.lookup id = none →
      ∀ d, env.customCollections.find? (fun c => c.prefixId == id) = some d →
        LoadIconSet env st0 id =
          ⟨some d, (migrateCache st0).1, (migrateCache st0).2,
            [LoadSource.memory, LoadSource.custom], (LoadIconSet env st0 id).logs⟩)
    ∧ ((migrateCache st0).1.loadedIconSets.lookup id = none →
      env.customCollections.find? (fun c => c.prefixId == id) = none →
      ∀ d, env.disk id = some d →
        LoadIconSet env st0 id =
          ⟨some d,
            { (migrateCache st0).1 with
                loadedIconSets := (id, d) :: (migrateCache st0).1.loadedIconSets },
            (migrateCache st0).2,
            [LoadSource.memory, LoadSource.custom, LoadSource.disk],
            (LoadIconSet env st0 id).logs⟩)
    ∧ ((migrateCache st0).1.loadedIconSets.lookup id = none →
      env.customCollections.find? (fun c => c.prefixId == id) = none →
      env.disk id = none →
      ∀ d, env.net (env.cdnEntry ++ "/" ++ id ++ ".json") = some d →
        LoadIconSet env st0 id =
          ⟨some d,
            { (migrateCache st0).1 with
                loadedIconSets := (id, d) :: (migrateCache st0).1.loadedIconSets },
            (migrateCache st0).2 ++ [(id, d)],
            [LoadSource.memory, LoadSource.custom, LoadSource.disk,
              LoadSource.network],
            (LoadIconSet env st0 id).logs⟩)
    ∧ ((migrateCache st0).1.loadedIconSets.lookup id = none →
      env.customCollections.find? (fun c => c.prefixId == id) = none →
      env.disk id = none →
      env.net (env.cdnEntry ++ "/" ++ id ++ ".json") = none →
        LoadIconSet env st0 id =
          ⟨none, (migrateCache st0).1, (migrateCache st0).2,
            [LoadSource.memory, LoadSource.custom, LoadSource.disk,
              LoadSource.network],
            (LoadIconSet env st0 id).logs⟩)
    ∧ (∀ f : String → Bool,
        (LoadIconSet { env with fsWriteFails := f } st0 id).result
            = (LoadIconSet env st0 id).result
        ∧ (LoadIconSet { env with fsWriteFails := f } st0 id).state
            = (LoadIconSet env st0 id).state
        ∧ (LoadIconSet { env with fsWriteFails := f } st0 id).fileWrites
            = (LoadIconSet env st0 id).fileWrites
        ∧ (LoadIconSet { env with fsWriteFails := f } st0 id).consulted
            = (LoadIconSet env st0 id).consulted) := by
  refine ⟨?_, ?_, ?_, ?_, ?_, ?_⟩
  · intro d hm
    simp [LoadIconSet, hm]
  · intro hm d hc
    simp [LoadIconSet, hm, hc]
  · intro hm hc d hd
    simp [LoadIconSet, hm, hc, hd]
  · intro hm hc hd d hn
    simp [LoadIconSet, hm, hc, hd, hn]
  · intro hm hc hd hn
    simp [LoadIconSet, hm, hc, hd, hn]
  · intro f
    simp only [LoadIconSet]
    cases hm : (migrateCache st0).1.loadedIconSets.lookup id <;>
      cases hc : env.customCollections.find? (fun c => c.prefixId == id) <;>
        cases hd : env.disk id <;>
          cases hn : env.net (env.cdnEntry ++ "/" ++ id ++ ".json") <;>
            simp [hm, hc, hd, hn]

/-- The icon set fetched in the C3 witness. -/
def dataC3 : IconifyJSON := { prefixId := "x" }

/-- Environment for the C3 witness: no custom collections, an empty disk,
and a network that answers exactly the URL `https://cdn/x.json`. -/
def envC3 : LoadEnv :=
  { customCollections := []
    disk := fun _ => none
    net := fun u => if u = "https://cdn/x.json" then some dataC3 else none
    cdnEntry := "https://cdn"
    fsWriteFails := fun _ => false }

/-- Witness for C3: the network branch on a fresh state. -/
theorem LoadIconSet_order_witness :
    (migrateCache {}).1.loadedIconSets.lookup "x" = none
    ∧ envC3.customCollections.find? (fun c => c.prefixId == "x") = none
    ∧ envC3.disk "x" = none
    ∧ envC3.net (envC3.cdnEntry ++ "/" ++ "x" ++ ".json") = some dataC3
    ∧ LoadIconSet envC3 {} "x" =
        ⟨some dataC3,
          { (migrateCache {}).1 with
              loadedIconSets := ("x", dataC3) :: (migrateCache {}).1.loadedIconSets },
          (migrateCache {}).2 ++ [("x", dataC3)],
          [LoadSource.memory, LoadSource.custom, LoadSource.disk,
            LoadSource.network],
          (LoadIconSet envC3 {} "x").logs⟩ :=
  ⟨by decide, by decide, by decide, by decide,
    (LoadIconSet_order envC3 {} "x").2.2.2.1 (by decide) (by decide) (by decide)
      dataC3 (by decide)⟩

/-- C4: a completed deduplicated task stays stored — a later call with the
same key returns the stored value (success or failure alike, `α` may be an
`Except`) without running the factory — until the entry is removed by
`deleteTask`, after which a call runs the factory again; `clearCache`
resets the task map in every case, so a call after it runs the factory. -/
theorem UniqPromise_memoization :
    (∀ (α : Type) (fn : String → α) (tasks : List (String × α)) (id : String)
        (v : α), tasks.lookup id = some v →
          UniqPromise fn tasks id = (v, tasks, false))
    ∧ (∀ (α : Type) (fn : String → α) (tasks : List (String × α)) (id : String),
        tasks.lookup id = none →
          UniqPromise fn tasks id = (fn id, (id, fn id) :: tasks, true)
          ∧ UniqPromise fn ((id, fn id) :: tasks) id
              = (fn id, (id, fn id) :: tasks, false)
          ∧ deleteTask ((id, fn id) :: tasks) id = tasks
          ∧ UniqPromise fn (deleteTask ((id, fn id) :: tasks) id) id
              = (fn id, (id, fn id) :: tasks, true))
    ∧ (∀ (fn : String → Option IconifyJSON) (st : ModuleState) (id : String),
        (clearCache st).1.tasks = []
        ∧ UniqPromise fn (clearCache st).1.tasks id
            = (fn id, [(id, fn id)], true)) := by
  refine ⟨?_, ?_, ?_⟩
  · intro α fn tasks id v hv
    simp [UniqPromise, hv]
  · intro α fn tasks id hnone
    have hdel : deleteTask ((id, fn id) :: tasks) id = tasks := by
      simp [deleteTask, List.eraseP_cons]
    refine ⟨by simp [UniqPromise, hnone], by simp [UniqPromise, List.lookup], hdel, ?_⟩
    rw [hdel]
    simp [UniqPromise, hnone]
  · intro fn st id
    have htasks : (clearCache st).1.tasks = [] := by
      by_cases hdir : st.cacheDirExists <;> simp [clearCache, hdir]
    exact ⟨htasks, by rw [htasks]; simp [UniqPromise, List.lookup]⟩

/-- Witness for C4 with a failed (`Except.error`) task value. -/
theorem UniqPromise_memoization_witness :
    (([] : List (String × Except String Nat)).lookup "k" = none)
    ∧ UniqPromise (fun _ => (Except.error "boom" : Except String Nat)) [] "k"
        = (Except.error "boom", [("k", Except.error "boom")], true)
    ∧ UniqPromise (fun _ => (Except.error "boom" : Except String Nat))
        [("k", Except.error "boom")] "k"
        = (Except.error "boom", [("k", Except.error "boom")], false)
    ∧ deleteTask [("k", (Except.error "boom" : Except String Nat))] "k" = [] := by
  have h := UniqPromise_memoization.2.1 (Except String Nat)
    (fun _ => Except.error "boom") [] "k" rfl
  exact ⟨rfl, h.1, h.2.1, h.2.2.1⟩

/-- The module state of the C7 failing input: a populated module with a
missing persisted cache directory. -/
def stC7 : ModuleState :=
  { tasks := [("c", some dataC1)]
    loadedIconSets := [("c", dataC1)]
    dataURLCache := [("k", "v")]
    globalState := [("icons-c", dataC1)]
    cacheDirExists := false }

/-- The same module state with the cache directory present. -/
def stC7ok : ModuleState := { stC7 with cacheDirExists := true }

/-- C7 evaluated at the failing input: when the persisted cache directory
does not exist, `clearCache` propagates the filesystem `FileNotFound`
rejection — it throws — and, apart from the task map (reset before the
deletion), nothing is cleared: the legacy `icons-` entry, the in-memory
icon-set map and the data-URL cache all survive. When the directory exists
everything is cleared and no error escapes. -/
theorem clearCache_missing_dir_throws :
    stC7.cacheDirExists = false
    ∧ (clearCache stC7).2 = some FsError.fileNotFound
    ∧ (clearCache stC7).1.tasks = []
    ∧ (clearCache stC7).1.dataURLCache = [("k", "v")]
    ∧ (clearCache stC7).1.loadedIconSets = [("c", dataC1)]
    ∧ (clearCache stC7).1.globalState = [("icons-c", dataC1)]
    ∧ (clearCache stC7ok).2 = none
    ∧ (clearCache stC7ok).1.tasks = []
    ∧ (clearCache stC7ok).1.dataURLCache = []
    ∧ (clearCache stC7ok).1.loadedIconSets = []
    ∧ (clearCache stC7ok).1.globalState = [] := by
  refine ⟨rfl, ?_, ?_, ?_, ?_, ?_, ?_, ?_, ?_, ?_, ?_⟩ <;> decide

/-- The icon-side argument record of the external `iconToSVG`
(`@iconify/utils`): the fields `pathToSvg` passes from the resolved info. -/
structure SVGIconArgs where
  body : String
  width : ℚ
  height : ℚ
  left : Option ℚ
  top : Option ℚ

/-- The customization record `pathToSvg` passes to `iconToSVG`. -/
structure SVGCustomizations where
  height : String
  rotate : Option Int
  hFlip : Option Bool
  vFlip : Option Bool

/-- The result record of the external `iconToSVG`. -/
structure SVGResult where
  attributes : List (String × String)
  body : String

/-- Environment of the rendering pipeline: the configured display color,
the external base64 encoder, and the external `iconToSVG` renderer. -/
structure RenderEnv where
  color : String
  encode : String → String
  iconToSVG : SVGIconArgs → SVGCustomizations → SVGResult

/-- `toDataUrl` (utils/svgs.ts lines 5-7): prefix the base64 encoding of
the markup with the fixed data-URL scheme. -/
def toDataUrl (renv : RenderEnv) (str : String) : String :=
  "data:image/svg+xml;base64," ++ renv.encode str

/-- `pathToSvg` (utils/svgs.ts lines 9-32): render through the external
`iconToSVG` and assemble the `<svg ...>...</svg>` document string with the
fixed namespace and aspect-ratio attributes followed by the renderer's
attributes. -/
def pathToSvg (renv : RenderEnv) (info : IconInfo) (fontSize : Int) : String :=
  let result := renv.iconToSVG
    ⟨info.body, info.width, info.height, info.left, info.top⟩
    ⟨toString fontSize ++ "px", info.rotate, info.hFlip, info.vFlip⟩
  let attributes :=
    ["xmlns=\"http://www.w3.org/2000/svg\"",
      "xmlns:xlink=\"http://www.w3.org/1999/xlink\"",
      "preserveAspectRatio=\"xMidYMid meet\""]
    ++ result.attributes.map (fun p => p.1 ++ "=\"" ++ p.2 ++ "\"")
  let formattedAttributes := String.intercalate " " attributes
  "<svg " ++ formattedAttributes ++ ">" ++ result.body ++ "</svg>"

/-- The data-URL scheme prefix makes `toDataUrl` output nonempty. -/
theorem toDataUrl_ne_empty (renv : RenderEnv) (str : String) :
    toDataUrl renv str ≠ "" := by
  intro h
  have hlen : (toDataUrl renv str).length = 0 := by rw [h]; rfl
  rw [toDataUrl, String.length_append] at hlen
  have h26 : ("data:image/svg+xml;base64,").length = 26 := by decide
  omega

/-- The overloaded first argument of `getDataURL`: a raw qualified key or
an already-resolved info object. -/
inductive KeyOrInfo where
  | rawKey (key : String)
  | resolved (info : IconInfo)

/-- `getDataURL` (svgs.ts lines 265-283) with the data-URL cache passed
explicitly: compute the composite cache key `color + fontSize + key`; a
present truthy (nonempty) cached string is returned as is; otherwise a raw
key is resolved through `getIconInfo` (an info argument is used directly),
a missing icon returns the empty string without touching the cache, and a
resolved icon is rendered, colorized, wrapped as a data URL, stored under
the cache key and returned. The boolean reports whether the resolver ran. -/
def getDataURL (env : IconEnv) (renv : RenderEnv)
    (cache : List (String × String)) (keyOrInfo : KeyOrInfo) (fontSize : Int) :
    String × List (String × String) × Bool :=
  let key := match keyOrInfo with
    | KeyOrInfo.rawKey k => k
    | KeyOrInfo.resolved i => i.key
  let cacheKey := renv.color ++ toString fontSize ++ key
  let cached := (cache.lookup cacheKey).getD ""
  if cached ≠ "" then (cached, cache, false)
  else
    let infoOpt := match keyOrInfo with
      | KeyOrInfo.rawKey k => (getIconInfo env k true).foundInfo
      | KeyOrInfo.resolved i => some i
    let attempted := match keyOrInfo with
      | KeyOrInfo.rawKey _ => true
      | KeyOrInfo.resolved _ => false
    match infoOpt with
    | none => ("", cache, attempted)
    | some info =>
      let s := toDataUrl renv
        ((pathToSvg renv info fontSize).replace "currentColor" renv.color)
      (s, (cacheKey, s) :: cache, attempted)

/-- C10: rendered data URLs always carry the nonempty scheme prefix; when
a raw key fails to resolve (and no truthy cache entry exists for its cache
key), `getDataURL` returns the empty string, leaves the cache untouched and
has invoked the resolver — so an identical later call re-attempts
resolution instead of returning a memoized failure; and every data-URL
cache whose stored strings are nonempty keeps that invariant across any
call. -/
theorem getDataURL_no_failure_memoization :
    (∀ (renv : RenderEnv) (str : String), toDataUrl renv str ≠ "")
    ∧ (∀ (env : IconEnv) (renv : RenderEnv) (cache : List (String × String))
        (key : String) (fontSize : Int),
        (cache.lookup (renv.color ++ toString fontSize ++ key)).getD "" = "" →
        (getIconInfo env key true).foundInfo = none →
        getDataURL env renv cache (KeyOrInfo.rawKey key) fontSize
          = ("", cache, true))
    ∧ (∀ (env : IconEnv) (renv : RenderEnv) (cache : List (String × String))
        (keyOrInfo : KeyOrInfo) (fontSize : Int),
        (∀ p ∈ cache, p.2 ≠ "") →
        ∀ p ∈ (getDataURL env renv cache keyOrInfo fontSize).2.1, p.2 ≠ "") := by
  refine ⟨toDataUrl_ne_empty, ?_, ?_⟩
  · intro env renv cache key fontSize hc hinfo
    simp [getDataURL, hc, hinfo]
  · intro env renv cache keyOrInfo fontSize hinv p hp
    cases keyOrInfo with
    | rawKey k =>
      simp only [getDataURL] at hp
      split at hp
      · exact hinv p hp
      · split at hp
        · exact hinv p hp
        · rcases List.mem_cons.mp hp with h | hmem
          · subst h
            exact toDataUrl_ne_empty _ _
          · exact hinv p hmem
    | resolved i =>
      simp only [getDataURL] at hp
      split at hp
      · exact hinv p hp
      · rcases List.mem_cons.mp hp with h | hmem
        · subst h
          exact toDataUrl_ne_empty _ _
        · exact hinv p hmem

/-- Environment for the C10 witness: every collection fails to load. -/
def envC10 : IconEnv :=
  { enabledAliases := fun _ => none
    customAliasesOnly := false
    parseIcon := fun s =>
      if s = "a:i" then some { collection := "a", icon := "i" } else none
    load := fun _ => none }

/-- Render environment for the C10 witness. -/
def renvC10 : RenderEnv :=
  { color := "#fff"
    encode := fun s => s
    iconToSVG := fun _ _ => { attributes := [], body := "" } }

/-- Witness for C10: a failing resolution on an empty cache. -/
theorem getDataURL_no_failure_memoization_witness :
    ((([] : List (String × String)).lookup
        ("#fff" ++ toString (32:Int) ++ "a:i")).getD "" = "")
    ∧ (getIconInfo envC10 "a:i" true).foundInfo = none
    ∧ getDataURL envC10 renvC10 [] (KeyOrInfo.rawKey "a:i") 32 = ("", [], true) := by
  have hinfo : (getIconInfo envC10 "a:i" true).foundInfo = none := by
    simp [getIconInfo, envC10, GetIconResult.foundInfo]
  exact ⟨rfl, hinfo,
    getDataURL_no_failure_memoization.2.1 envC10 renvC10 [] "a:i" 32 rfl hinfo⟩
